import Mathlib

/-!
Shallow embedding of the origin-ca-issuer certificate-request reconciler.

The definitions below are translated from:
* `pkgs/provisioners/origin.go` — the provisioner (`Provisioner.Sign`, `closest`),
* `pkgs/controllers/certificaterequest.go` — the reconciler (`Reconcile`, `setStatus`),
* the condition helpers of the controllers package (`IssuerStatusHasCondition`, `SetIssuerStatusCondition`),
together with the cert-manager library helpers the reconciler calls
(`CertificateRequestHasCondition`, `CertificateRequestIsDenied`,
`CertificateRequestIsApproved`, `SetCertificateRequestCondition`), embedded from
their upstream implementations.

Go byte slices are modelled as `String` (in Go, `[]byte` and `string` convert
byte-wise, and the code only ever converts between the two). Durations are
modelled in whole hours (an `Option Int`), matching the truncation
`int(d.Hours()/24)` in the code, which for whole-hour durations is `Int.quot 24`.
Times are opaque integers. External collaborators (object store, secret reader,
API factory, CSR decoder, remote signer, clock) are supplied through an
environment record of functions, and Go errors are an explicit inductive type
mirroring `fmt.Errorf` wrapping and the structured `cfapi.APIError`.
-/

namespace OriginCA

/-- Go `[]byte`, modelled byte-for-byte as a string. -/
abbrev Bytes := String

/-- Structured Go errors as the reconciler can observe them:
plain errors, the structured `cfapi.APIError` (code, message, ray id),
a Kubernetes not-found status error, and `fmt.Errorf("..: %w", err)` wrapping. -/
inductive GoError where
  | simple (msg : String)
  | apiError (code : Int) (message : String) (rayID : String)
  | k8sNotFound (msg : String)
  | wrapped (msg : String) (cause : GoError)
deriving Repr, DecidableEq

/-- Rendering of an error, as `fmt` verbs `%v` and `%s` produce it
(`cfapi.APIError.Error` formats as shown in the tests of the repository). -/
def GoError.render : GoError → String
  | .simple m => m
  | .apiError c m r =>
      "Cloudflare API Error code=" ++ toString c ++ " message=" ++ m ++ " ray_id=" ++ r
  | .k8sNotFound m => m
  | .wrapped m e => m ++ ": " ++ e.render

/-- `errors.As(err, &apiError)` for `*cfapi.APIError`: walk the wrap chain
looking for a structured API error. -/
def errorsAsAPIError : GoError → Option (Int × String × String)
  | .apiError c m r => some (c, m, r)
  | .wrapped _ e => errorsAsAPIError e
  | _ => none

/-- `apierrors.IsNotFound`: does the error chain carry a Kubernetes
not-found status error. -/
def apierrorsIsNotFound : GoError → Bool
  | .k8sNotFound _ => true
  | .wrapped _ e => apierrorsIsNotFound e
  | _ => false

/-- `metav1.ObjectMeta`, restricted to the fields the reconciler reads. -/
structure ObjectMeta where
  ns : String
  name : String
deriving Repr, DecidableEq

/-- `cmmeta.ObjectReference` — the issuer reference on a certificate request. -/
structure ObjectReference where
  name : String
  kind : String
  group : String
deriving Repr, DecidableEq

/-- `cmapi.CertificateRequestCondition`. -/
structure CertificateRequestCondition where
  condType : String
  status : String
  reason : String
  message : String
  lastTransitionTime : Option Int
deriving Repr, DecidableEq

/-- `cmapi.CertificateRequestSpec`, restricted to the fields the code reads.
`duration` is the requested validity in whole hours (`none` when unset). -/
structure CertificateRequestSpec where
  request : Bytes
  duration : Option Int
  issuerRef : ObjectReference
  isCA : Bool
deriving Repr, DecidableEq

/-- `cmapi.CertificateRequestStatus`. -/
structure CertificateRequestStatus where
  conditions : List CertificateRequestCondition
  failureTime : Option Int
  certificate : Bytes
deriving Repr, DecidableEq

/-- `cmapi.CertificateRequest`. -/
structure CertificateRequest where
  meta : ObjectMeta
  spec : CertificateRequestSpec
  status : CertificateRequestStatus
deriving Repr, DecidableEq

/-- `cmmeta.ConditionTrue`. -/
def ConditionTrue : String := "True"

/-- `cmmeta.ConditionFalse`. -/
def ConditionFalse : String := "False"

/-- `cmapi.CertificateRequestConditionReady`. -/
def CertificateRequestConditionReady : String := "Ready"

/-- `cmapi.CertificateRequestConditionApproved`. -/
def CertificateRequestConditionApproved : String := "Approved"

/-- `cmapi.CertificateRequestConditionDenied`. -/
def CertificateRequestConditionDenied : String := "Denied"

/-- `cmapi.CertificateRequestReasonFailed`. -/
def CertificateRequestReasonFailed : String := "Failed"

/-- `cmapi.CertificateRequestReasonDenied`. -/
def CertificateRequestReasonDenied : String := "Denied"

/-- `cmapi.CertificateRequestReasonPending`. -/
def CertificateRequestReasonPending : String := "Pending"

/-- `cmapi.CertificateRequestReasonIssued`. -/
def CertificateRequestReasonIssued : String := "Issued"

/-- `v1.GroupVersion.Group` of the API types of this repository, as used in
the issuer references appearing in its tests. -/
def groupVersionGroup : String := "cert-manager.k8s.cloudflare.com"

/-- cert-manager `cmutil.CertificateRequestHasCondition`: true when some
existing condition matches the given one on type and status, and on reason
as well unless the given reason is empty. -/
def certificateRequestHasCondition (cr : CertificateRequest)
    (c : CertificateRequestCondition) : Bool :=
  cr.status.conditions.any fun cond =>
    c.condType == cond.condType && c.status == cond.status &&
      (c.reason == "" || c.reason == cond.reason)

/-- cert-manager `cmutil.CertificateRequestIsDenied`: a condition of type
`Denied` with status `True` exists. -/
def certificateRequestIsDenied (cr : CertificateRequest) : Bool :=
  cr.status.conditions.any fun cond =>
    cond.condType == CertificateRequestConditionDenied && cond.status == ConditionTrue

/-- cert-manager `cmutil.CertificateRequestIsApproved`: a condition of type
`Approved` with status `True` exists. -/
def certificateRequestIsApproved (cr : CertificateRequest) : Bool :=
  cr.status.conditions.any fun cond =>
    cond.condType == CertificateRequestConditionApproved && cond.status == ConditionTrue

/-- cert-manager `cmutil.SetCertificateRequestCondition`, on the condition
list: update the first condition of the given type in place (keeping its
transition time when the status is unchanged, stamping `now` otherwise), or
append a fresh condition stamped `now` when none of the type exists. -/
def setCertificateRequestConditionList (now : Int) (t s reason message : String) :
    List CertificateRequestCondition → List CertificateRequestCondition
  | [] => [⟨t, s, reason, message, some now⟩]
  | cond :: rest =>
      if cond.condType == t then
        (if cond.status == s then
          ⟨t, s, reason, message, cond.lastTransitionTime⟩
        else
          ⟨t, s, reason, message, some now⟩) :: rest
      else
        cond :: setCertificateRequestConditionList now t s reason message rest

/-- `v1.OriginIssuerCondition`. -/
structure OriginIssuerCondition where
  condType : String
  status : String
  reason : String
  message : String
  lastTransitionTime : Option Int
deriving Repr, DecidableEq

/-- `v1.OriginIssuerStatus`. -/
structure OriginIssuerStatus where
  conditions : List OriginIssuerCondition
deriving Repr, DecidableEq

/-- `v1.ConditionReady`. -/
def IssuerConditionReady : String := "Ready"

/-- `v1.ConditionTrue`. -/
def IssuerConditionTrue : String := "True"

/-- `v1.SecretKeySelector`. -/
structure SecretKeySelector where
  name : String
  key : String
deriving Repr, DecidableEq

/-- `v1.OriginIssuerAuthentication`. -/
structure OriginIssuerAuthentication where
  serviceKeyRef : SecretKeySelector
deriving Repr, DecidableEq

/-- Modelled from the spec: the issuer request-type enum has exactly two
variants, ECC and RSA (the enum declaration lives in the API types package
`pkgs/apis/v1`, which is not among the sources at hand; only the two variant
names matter here, not their underlying strings). -/
def RequestTypeOriginECC : String := "OriginECC"

/-- Modelled from the spec: the RSA variant of the request-type enum. -/
def RequestTypeOriginRSA : String := "OriginRSA"

/-- `v1.OriginIssuerSpec`, restricted to the fields the code reads. -/
structure OriginIssuerSpec where
  auth : OriginIssuerAuthentication
  requestType : String
deriving Repr, DecidableEq

/-- `v1.OriginIssuer` (and, sharing the same shape, `v1.ClusterOriginIssuer`). -/
structure OriginIssuer where
  meta : ObjectMeta
  spec : OriginIssuerSpec
  status : OriginIssuerStatus
deriving Repr, DecidableEq

/-- `core.Secret`, with its data as an association list keyed by data key. -/
structure Secret where
  meta : ObjectMeta
  data : List (String × Bytes)
deriving Repr, DecidableEq

/-- Go map indexing `secret.Data[key]` with its ok flag. -/
def Secret.lookup (s : Secret) (k : String) : Option Bytes :=
  (s.data.find? fun p => p.1 == k).map (·.2)

/-- `IssuerStatusHasCondition` (controllers package): true when a condition
matching on type and status exists; reason, message and time are ignored. -/
def IssuerStatusHasCondition (status : OriginIssuerStatus)
    (c : OriginIssuerCondition) : Bool :=
  status.conditions.any fun cond =>
    c.condType == cond.condType && c.status == cond.status

/-- `SetIssuerStatusCondition` (controllers package), on the condition list:
replace the first condition of the given type (keeping its transition time
when the status is unchanged, stamping `now` otherwise), or append a fresh
condition stamped `now` when none of the type exists. The logger argument of
the Go function only emits an observability event and is dropped. -/
def setIssuerConditionList (now : Int) (t s reason message : String) :
    List OriginIssuerCondition → List OriginIssuerCondition
  | [] => [⟨t, s, reason, message, some now⟩]
  | cond :: rest =>
      if cond.condType == t then
        (if cond.status == s then
          ⟨t, s, reason, message, cond.lastTransitionTime⟩
        else
          ⟨t, s, reason, message, some now⟩) :: rest
      else
        cond :: setIssuerConditionList now t s reason message rest

/-- `SetIssuerStatusCondition` (controllers package), at the status level;
`now` stands for `cl.Now()`. -/
def SetIssuerStatusCondition (ois : OriginIssuerStatus)
    (conditionType status : String) (now : Int) (reason message : String) :
    OriginIssuerStatus :=
  ⟨setIssuerConditionList now conditionType status reason message ois.conditions⟩

/-! ## The provisioner (`pkgs/provisioners/origin.go`) -/

/-- `DefaultDurationInternval` — the default validity, if not provided
(the misspelling is carried over from the source). -/
def DefaultDurationInternval : Int := 7

/-- `allowedValidty` — the validities accepted by the Cloudflare API
(the misspelling is carried over from the source). -/
def allowedValidty : List Int := [7, 30, 90, 365, 730, 1095, 5475]

/-- The loop of `closest`: scan the list keeping the current minimum
absolute difference (`none` models the initial `math.MaxFloat64`, larger
than every actual difference) and the current closest value, updating both
exactly when the difference is strictly below the minimum so far. -/
def closestAux (of : Int) : List Int → Option Nat → Int → Int
  | [], _, c => c
  | v :: rest, min?, c =>
      let diff := (v - of).natAbs
      match min? with
      | none => closestAux of rest (some diff) v
      | some m =>
          if diff < m then closestAux of rest (some diff) v
          else closestAux of rest min? c

/-- `closest(of, valid)`: the element of `valid` nearest to `of`, the first
such element winning ties; `of` itself when the list is empty. The Go loop
compares `float64` absolute differences, which are exact for the integral
differences arising here. -/
def closest (of : Int) (valid : List Int) : Int :=
  closestAux of valid none of

/-- The CSR as the provisioner observes it after
`pki.DecodeX509CertificateRequestBytes`: the code reads only the DNS names. -/
structure CSR where
  dnsNames : List String
deriving Repr, DecidableEq

/-- `cfapi.SignRequest` (field `Type` is named `reqType` here, `type` being
reserved). -/
structure SignRequest where
  hostnames : List String
  validity : Int
  reqType : String
  csr : String
deriving Repr, DecidableEq

/-- `cfapi.SignResponse`, restricted to the fields the code reads. -/
structure SignResponse where
  id : String
  certificate : String
deriving Repr, DecidableEq

/-- The `Signer` interface of the provisioners package: the remote Origin CA
signing call. -/
abbrev Signer := SignRequest → Except GoError SignResponse

/-- `Provisioner` (the logger field is dropped; it only logs). -/
structure Provisioner where
  client : Signer
  reqType : String

/-- `provisioners.New` — note it never fails: the Go function always
returns a nil error. -/
def provisionersNew (client : Signer) (reqType : String) : Provisioner :=
  ⟨client, reqType⟩

/-- The `switch p.reqType` of `Sign`: the wire-level type tag. There is no
default case, so any unrecognized value leaves the tag at its zero value,
the empty string. -/
def wireRequestType (rt : String) : String :=
  if rt == RequestTypeOriginECC then "origin-ecc"
  else if rt == RequestTypeOriginRSA then "origin-rsa"
  else ""

/-- The duration computation of `Sign`: the default when no duration is
requested, otherwise `closest(int(d.Hours()/24), allowedValidty)`; for a
duration of `hrs` whole hours, `int(hrs/24)` is truncating division. -/
def signValidity (dur : Option Int) : Int :=
  match dur with
  | none => DefaultDurationInternval
  | some hrs => closest (hrs.tdiv 24) allowedValidty

/-- The `cfapi.SignRequest` literal built inside `Sign` from the decoded CSR
and the certificate request. -/
def buildSignRequest (csr : CSR) (cr : CertificateRequest) (rt : String) :
    SignRequest :=
  { hostnames := csr.dnsNames
    validity := signValidity cr.spec.duration
    reqType := wireRequestType rt
    csr := cr.spec.request }

/-- `Provisioner.Sign`, with the CSR decoder passed explicitly (it is a
package function of an external library in Go). A decode failure is
formatted with `%s` (message only); a signer failure is wrapped with `%w`
(`"unable to sign request: %w"`). -/
def Provisioner.Sign (p : Provisioner) (decode : Bytes → Except GoError CSR)
    (cr : CertificateRequest) : Except GoError Bytes :=
  match decode cr.spec.request with
  | .error e => .error (.simple ("failed to decode CSR for signing: " ++ e.render))
  | .ok csr =>
      match p.client (buildSignRequest csr cr p.reqType) with
      | .error e => .error (.wrapped "unable to sign request" e)
      | .ok resp => .ok resp.certificate

/-! ## The certificate-request reconciler (`pkgs/controllers/certificaterequest.go`) -/

/-- `originDBWriteErrorCode`. -/
def originDBWriteErrorCode : Int := 1100

/-- The `Ready=True` query condition of the first ignore check of `Reconcile`
(zero-valued reason: matches any reason). -/
def readyTrueQ : CertificateRequestCondition :=
  ⟨CertificateRequestConditionReady, ConditionTrue, "", "", none⟩

/-- The `Ready=False/Failed` query condition of the second ignore check. -/
def readyFailedQ : CertificateRequestCondition :=
  ⟨CertificateRequestConditionReady, ConditionFalse,
    CertificateRequestReasonFailed, "", none⟩

/-- The `Ready=False/Denied` query condition of the third ignore check. -/
def readyDeniedQ : CertificateRequestCondition :=
  ⟨CertificateRequestConditionReady, ConditionFalse,
    CertificateRequestReasonDenied, "", none⟩

/-- The `{Ready, True}` query condition of the issuer readiness checks. -/
def issuerReadyQ : OriginIssuerCondition :=
  ⟨IssuerConditionReady, IssuerConditionTrue, "", "", none⟩

/-- `types.NamespacedName.String()`. -/
def nnString (ns name : String) : String := ns ++ "/" ++ name

/-- Go `%q` on a string (approximated: no escaping arises in the inputs at
hand). -/
def quoted (s : String) : String := "\"" ++ s ++ "\""

/-- The external collaborators and configuration of
`CertificateRequestController`: the clock, the configured cluster-resource
namespace, the approval gate flag, the object store reads (issuers by key,
secrets by key), the API factory, the CSR decoder, and the outcome of
`Status().Update` calls (`none` = success). -/
structure ReconcileEnv where
  clockNow : Int
  clusterResourceNamespace : String
  checkApprovedCondition : Bool
  getOriginIssuer : String → String → Except GoError OriginIssuer
  getClusterOriginIssuer : String → Except GoError OriginIssuer
  getSecret : String → String → Except GoError Secret
  apiWith : Bytes → Except GoError Signer
  decodeCSR : Bytes → Except GoError CSR
  updateStatusErr : Option GoError

/-- The observable outcome of one `Reconcile` call: the request as mutated
in place, the returned error (`none` = success; the `reconcile.Result` is
always the zero value), and — as ghost instrumentation — whether the remote
signer capability was invoked. -/
structure ReconcileOutcome where
  cr : CertificateRequest
  err : Option GoError
  signerInvoked : Bool
deriving Repr

/-- `setStatus`: set the `Ready` condition via
`cmutil.SetCertificateRequestCondition` and update the status subresource,
returning the updated request and the error of the update call. -/
def setStatus (env : ReconcileEnv) (cr : CertificateRequest)
    (status reason message : String) : CertificateRequest × Option GoError :=
  ({ cr with
      status := { cr.status with
        conditions := setCertificateRequestConditionList env.clockNow
          CertificateRequestConditionReady status reason message
          cr.status.conditions } },
    env.updateStatusErr)

/-- The tail of `Reconcile` from the secret fetch onward, parameterized by
the resolved secret location (`secretNamespaceName`) and issuer spec. -/
def afterResolve (env : ReconcileEnv) (cr : CertificateRequest)
    (secretNamespace secretName : String) (issuerspec : OriginIssuerSpec) :
    ReconcileOutcome :=
  match env.getSecret secretNamespace secretName with
  | .error e =>
      let reason := if apierrorsIsNotFound e then "NotFound" else "Error"
      let (cr1, _) := setStatus env cr ConditionFalse reason
        ("Failed to retrieve auth secret: " ++ e.render)
      ⟨cr1, some e, false⟩
  | .ok secret =>
      match secret.lookup issuerspec.auth.serviceKeyRef.key with
      | none =>
          let err := GoError.simple ("secret " ++ secret.meta.name ++
            " does not contain key " ++ quoted issuerspec.auth.serviceKeyRef.key)
          let (cr1, _) := setStatus env cr ConditionFalse "NotFound"
            ("Failed to retrieve auth secret: " ++ err.render)
          ⟨cr1, some err, false⟩
      | some serviceKey =>
          match env.apiWith serviceKey with
          | .error e => ⟨cr, some e, false⟩
          | .ok c =>
              let p := provisionersNew c issuerspec.requestType
              let invoked := (env.decodeCSR cr.spec.request).isOk
              match p.Sign env.decodeCSR cr with
              | .error err =>
                  (match errorsAsAPIError err with
                  | some (code, _, _) =>
                      if code == originDBWriteErrorCode then
                        ⟨cr, some err, invoked⟩
                      else
                        let (cr1, _) := setStatus env cr ConditionFalse
                          CertificateRequestReasonFailed
                          ("Failed to sign certificate request: " ++ err.render)
                        ⟨cr1, some err, invoked⟩
                  | none =>
                      let (cr1, _) := setStatus env cr ConditionFalse
                        CertificateRequestReasonFailed
                        ("Failed to sign certificate request: " ++ err.render)
                      ⟨cr1, some err, invoked⟩)
              | .ok pem =>
                  let cr1 := { cr with status := { cr.status with certificate := pem } }
                  let (cr2, _) := setStatus env cr1 ConditionTrue
                    CertificateRequestReasonIssued "Certificate issued"
                  ⟨cr2, none, invoked⟩

/-- The `case "OriginIssuer"` arm of the issuer-kind switch of `Reconcile`:
fetch the issuer at `(cr.Namespace, ref.Name)`, require readiness, then
continue with the credential secret located in the own namespace of the
issuer object. -/
def resolveOriginIssuer (env : ReconcileEnv) (cr : CertificateRequest) :
    ReconcileOutcome :=
  match env.getOriginIssuer cr.meta.ns cr.spec.issuerRef.name with
  | .error e =>
      let (cr1, _) := setStatus env cr ConditionFalse
        CertificateRequestReasonPending
        ("Failed to retrieve OriginIssuer resource " ++
          nnString cr.meta.ns cr.spec.issuerRef.name ++ ": " ++ e.render)
      ⟨cr1, some e, false⟩
  | .ok iss =>
      if !IssuerStatusHasCondition iss.status issuerReadyQ then
        let err := GoError.simple ("resource " ++
          nnString cr.meta.ns cr.spec.issuerRef.name ++ " is not ready")
        let (cr1, _) := setStatus env cr ConditionFalse
          CertificateRequestReasonPending
          ("OriginIssuer " ++ nnString cr.meta.ns cr.spec.issuerRef.name ++
            " is not Ready")
        ⟨cr1, some err, false⟩
      else
        afterResolve env cr iss.meta.ns iss.spec.auth.serviceKeyRef.name iss.spec

/-- The `case "ClusterOriginIssuer"` arm of the issuer-kind switch of
`Reconcile`: fetch the cluster issuer by name (no namespace), require
readiness, then continue with the credential secret located in the
configured cluster-resource namespace. -/
def resolveClusterOriginIssuer (env : ReconcileEnv) (cr : CertificateRequest) :
    ReconcileOutcome :=
  match env.getClusterOriginIssuer cr.spec.issuerRef.name with
  | .error e =>
      let (cr1, _) := setStatus env cr ConditionFalse
        CertificateRequestReasonPending
        ("Failed to retrieve OriginIssuer resource " ++
          nnString "" cr.spec.issuerRef.name ++ ": " ++ e.render)
      ⟨cr1, some e, false⟩
  | .ok iss =>
      if !IssuerStatusHasCondition iss.status issuerReadyQ then
        let err := GoError.simple ("resource " ++
          nnString "" cr.spec.issuerRef.name ++ " is not ready")
        let (cr1, _) := setStatus env cr ConditionFalse
          CertificateRequestReasonPending
          ("OriginIssuer " ++ nnString "" cr.spec.issuerRef.name ++
            " is not Ready")
        ⟨cr1, some err, false⟩
      else
        afterResolve env cr env.clusterResourceNamespace
          iss.spec.auth.serviceKeyRef.name iss.spec

/-- The `default` arm of the issuer-kind switch of `Reconcile`. -/
def resolveUnknownKind (env : ReconcileEnv) (cr : CertificateRequest) :
    ReconcileOutcome :=
  let err := GoError.simple ("unknown issuer kind: " ++ cr.spec.issuerRef.kind)
  let (cr1, _) := setStatus env cr ConditionFalse CertificateRequestReasonFailed
    ("Unknown issuer kind: " ++ cr.spec.issuerRef.kind)
  ⟨cr1, some err, false⟩

/-- The `switch cr.Spec.IssuerRef.Kind` of `Reconcile`. -/
def reconcileIssuerKind (env : ReconcileEnv) (cr : CertificateRequest) :
    ReconcileOutcome :=
  if cr.spec.issuerRef.kind == "OriginIssuer" then
    resolveOriginIssuer env cr
  else if cr.spec.issuerRef.kind == "ClusterOriginIssuer" then
    resolveClusterOriginIssuer env cr
  else
    resolveUnknownKind env cr

/-- The denied branch of `Reconcile`: stamp the failure time if unset, then
set `Ready=False/Denied`, returning the status-update error. -/
def reconcileDenied (env : ReconcileEnv) (cr : CertificateRequest) :
    ReconcileOutcome :=
  let cr1 :=
    if cr.status.failureTime.isNone then
      { cr with status := { cr.status with failureTime := some env.clockNow } }
    else cr
  let (cr2, e) := setStatus env cr1 ConditionFalse CertificateRequestReasonDenied
    "The CertificateRequest was denied by an approval controller"
  ⟨cr2, e, false⟩

/-- `CertificateRequestController.Reconcile`. -/
def Reconcile (env : ReconcileEnv) (cr : CertificateRequest) : ReconcileOutcome :=
  if cr.spec.issuerRef.group != "" && cr.spec.issuerRef.group != groupVersionGroup then
    ⟨cr, none, false⟩
  else if certificateRequestHasCondition cr readyTrueQ then
    ⟨cr, none, false⟩
  else if certificateRequestHasCondition cr readyFailedQ then
    ⟨cr, none, false⟩
  else if certificateRequestHasCondition cr readyDeniedQ then
    ⟨cr, none, false⟩
  else if certificateRequestIsDenied cr then
    reconcileDenied env cr
  else if env.checkApprovedCondition && !certificateRequestIsApproved cr then
    ⟨cr, none, false⟩
  else if cr.status.certificate.length > 0 then
    ⟨cr, none, false⟩
  else if cr.spec.isCA then
    ⟨cr, none, false⟩
  else
    reconcileIssuerKind env cr

/-! ## Characterization of `closest` -/

/-- One combining step of the nearest-element scan: prefer the new candidate
`v` exactly when it is at least as close as the best so far. -/
def combineNearest (of v : Int) : Option Int → Option Int
  | none => some v
  | some w => if (v - of).natAbs ≤ (w - of).natAbs then some v else some w

/-- Proof-side characterization target: the first element of the list
minimizing the absolute difference to `of`. -/
def firstNearest (of : Int) : List Int → Option Int
  | [] => none
  | v :: rest => combineNearest of v (firstNearest of rest)

/-- Resolving a scan outcome against the running minimum `m`: a nearest
element only displaces the current candidate `c` when strictly below `m`. -/
def resolveNearest (of : Int) (m : Nat) (c : Int) : Option Int → Int
  | none => c
  | some w => if (w - of).natAbs < m then w else c

lemma combineNearest_none (of v : Int) : combineNearest of v none = some v := rfl

lemma combineNearest_some (of v w : Int) :
    combineNearest of v (some w) =
      if (v - of).natAbs ≤ (w - of).natAbs then some v else some w := rfl

lemma resolveNearest_none (of : Int) (m : Nat) (c : Int) :
    resolveNearest of m c none = c := rfl

lemma resolveNearest_some (of : Int) (m : Nat) (c w : Int) :
    resolveNearest of m c (some w) = if (w - of).natAbs < m then w else c := rfl

lemma firstNearest_nil (of : Int) : firstNearest of [] = none := rfl

lemma firstNearest_cons (of v : Int) (rest : List Int) :
    firstNearest of (v :: rest) = combineNearest of v (firstNearest of rest) := rfl

lemma closestAux_nil (of : Int) (m? : Option Nat) (c : Int) :
    closestAux of [] m? c = c := rfl

lemma closestAux_cons_none (of v : Int) (rest : List Int) (c : Int) :
    closestAux of (v :: rest) none c =
      closestAux of rest (some ((v - of).natAbs)) v := rfl

lemma closestAux_cons_some (of v : Int) (rest : List Int) (m : Nat) (c : Int) :
    closestAux of (v :: rest) (some m) c =
      if (v - of).natAbs < m then closestAux of rest (some ((v - of).natAbs)) v
      else closestAux of rest (some m) c := rfl

lemma firstNearest_eq_none {of : Int} : ∀ {L : List Int},
    firstNearest of L = none → L = []
  | [], _ => rfl
  | v :: rest, h => by
      rw [firstNearest_cons] at h
      cases hr : firstNearest of rest with
      | none => rw [hr, combineNearest_none] at h; exact absurd h (by simp)
      | some w =>
          rw [hr, combineNearest_some] at h
          split at h <;> exact absurd h (by simp)

lemma closestAux_some (of : Int) :
    ∀ (L : List Int) (m : Nat) (c : Int),
    closestAux of L (some m) c = resolveNearest of m c (firstNearest of L)
  | [], _, _ => rfl
  | v :: rest, m, c => by
      rw [closestAux_cons_some, firstNearest_cons]
      rw [closestAux_some of rest, closestAux_some of rest]
      cases hr : firstNearest of rest with
      | none =>
          simp only [combineNearest_none, resolveNearest_none, resolveNearest_some]
      | some w =>
          simp only [combineNearest_some, resolveNearest_some,
            apply_ite (resolveNearest of m c), resolveNearest_none]
          split_ifs <;> omega

lemma closest_eq_firstNearest (of : Int) :
    ∀ L : List Int, closest of L = (firstNearest of L).getD of
  | [] => rfl
  | v :: rest => by
      rw [show closest of (v :: rest) =
            closestAux of rest (some ((v - of).natAbs)) v from
          closestAux_cons_none of v rest of]
      rw [closestAux_some of rest, firstNearest_cons]
      cases hr : firstNearest of rest with
      | none =>
          simp only [combineNearest_none, resolveNearest_none, Option.getD_some]
      | some w =>
          simp only [combineNearest_some, resolveNearest_some,
            apply_ite (Option.getD · of), Option.getD_some]
          split_ifs <;> omega

lemma firstNearest_spec (of : Int) :
    ∀ (L : List Int) (w : Int), firstNearest of L = some w →
      ∃ L₁ L₂, L = L₁ ++ w :: L₂ ∧
        (∀ u ∈ L₁, (w - of).natAbs < (u - of).natAbs) ∧
        (∀ u ∈ L, (w - of).natAbs ≤ (u - of).natAbs)
  | [], w, h => by exact absurd h (by simp [firstNearest_nil])
  | v :: rest, w, h => by
      rw [firstNearest_cons] at h
      cases hr : firstNearest of rest with
      | none =>
          rw [hr, combineNearest_none] at h
          have hrest : rest = [] := firstNearest_eq_none hr
          simp only [Option.some.injEq] at h
          subst h; subst hrest
          exact ⟨[], [], rfl, by simp, by simp⟩
      | some wr =>
          rw [hr, combineNearest_some] at h
          obtain ⟨R₁, R₂, hsp, hstrict, hmin⟩ := firstNearest_spec of rest wr hr
          by_cases h1 : (v - of).natAbs ≤ (wr - of).natAbs
          · rw [if_pos h1, Option.some.injEq] at h
            subst h
            refine ⟨[], rest, rfl, by simp, ?_⟩
            intro u hu
            rcases List.mem_cons.mp hu with h | h
            · subst h; exact le_refl _
            · exact le_trans h1 (hmin u h)
          · rw [if_neg h1, Option.some.injEq] at h
            subst h
            refine ⟨v :: R₁, R₂, by rw [hsp]; rfl, ?_, ?_⟩
            · intro u hu
              rcases List.mem_cons.mp hu with h | h
              · subst h; omega
              · exact hstrict u h
            · intro u hu
              rcases List.mem_cons.mp hu with h | h
              · subst h; omega
              · exact hmin u h

/-! ## Shared helper lemmas -/

lemma reconcile_noop_of_terminal (env : ReconcileEnv) (cr : CertificateRequest)
    (h : certificateRequestHasCondition cr readyTrueQ = true ∨
        certificateRequestHasCondition cr readyFailedQ = true ∨
        certificateRequestHasCondition cr readyDeniedQ = true) :
    Reconcile env cr = ⟨cr, none, false⟩ := by
  rw [Reconcile]
  split
  · rfl
  split
  · rfl
  split
  · rfl
  split
  · rfl
  rcases h with h | h | h <;> exact absurd h (by assumption)

/-- After `setCertificateRequestConditionList now t s r m`, the list carries a
condition matching `⟨t, s, r, _, _⟩` on type, status and reason. -/
lemma hasCondition_after_set (now : Int) (t s r m : String) :
    ∀ conds : List CertificateRequestCondition,
      (setCertificateRequestConditionList now t s r m conds).any
        (fun cond => t == cond.condType && s == cond.status &&
          (r == "" || r == cond.reason)) = true
  | [] => by rw [setCertificateRequestConditionList]; simp
  | cond :: rest => by
      rw [setCertificateRequestConditionList]
      by_cases h1 : (cond.condType == t) = true
      · rw [if_pos h1]
        by_cases h2 : (cond.status == s) = true
        · rw [if_pos h2]; simp
        · rw [if_neg h2]; simp
      · rw [if_neg h1]
        simp only [List.any_cons, hasCondition_after_set now t s r m rest,
          Bool.or_true]

example : closest 0 allowedValidty = 7 := by decide
example : closest 18 allowedValidty = 7 := by decide
example : closest 19 allowedValidty = 30 := by decide
example : closest 60 allowedValidty = 30 := by decide
example : closest 3285 allowedValidty = 1095 := by decide
example : closest (-5) allowedValidty = 7 := by decide
example : signValidity none = 7 := by decide
example : signValidity (some (18 * 24)) = 7 := by decide

lemma string_length_pos {s : String} (h : s ≠ "") : 0 < s.length := by
  cases s with
  | mk data =>
      cases data with
      | nil => exact absurd rfl h
      | cons a l => simp [String.length]

/-- The hypotheses under which `Reconcile` falls through its short-circuit
checks and reaches the issuer-kind switch. -/
def reachesIssuerSwitch (env : ReconcileEnv) (cr : CertificateRequest) : Prop :=
  (cr.spec.issuerRef.group != "" && cr.spec.issuerRef.group != groupVersionGroup) = false ∧
  certificateRequestHasCondition cr readyTrueQ = false ∧
  certificateRequestHasCondition cr readyFailedQ = false ∧
  certificateRequestHasCondition cr readyDeniedQ = false ∧
  certificateRequestIsDenied cr = false ∧
  (env.checkApprovedCondition && !certificateRequestIsApproved cr) = false ∧
  cr.status.certificate.length = 0 ∧
  cr.spec.isCA = false

lemma reconcile_reaches_switch (env : ReconcileEnv) (cr : CertificateRequest)
    (h : reachesIssuerSwitch env cr) :
    Reconcile env cr = reconcileIssuerKind env cr := by
  obtain ⟨h1, h2, h3, h4, h5, h6, h7, h8⟩ := h
  rw [Reconcile]
  simp [h1, h2, h3, h4, h5, h6, h7, h8]

lemma reconcile_denied_path (env : ReconcileEnv) (cr : CertificateRequest)
    (h1 : (cr.spec.issuerRef.group != "" &&
      cr.spec.issuerRef.group != groupVersionGroup) = false)
    (h2 : certificateRequestHasCondition cr readyTrueQ = false)
    (h3 : certificateRequestHasCondition cr readyFailedQ = false)
    (h4 : certificateRequestHasCondition cr readyDeniedQ = false)
    (h5 : certificateRequestIsDenied cr = true) :
    Reconcile env cr = reconcileDenied env cr := by
  rw [Reconcile]
  simp [h1, h2, h3, h4, h5]

/-! ## Concrete fixtures for witnesses and counterexamples -/

/-- A ready issuer, shaped like the working test case of the repository. -/
def issuerOk : OriginIssuer :=
  { meta := ⟨"default", "foobar"⟩
    spec := { auth := { serviceKeyRef := { name := "service-key-issuer", key := "key" } }
              requestType := RequestTypeOriginRSA }
    status := ⟨[⟨IssuerConditionReady, IssuerConditionTrue, "", "", none⟩]⟩ }

/-- The auth secret holding the service key. -/
def secretOk : Secret :=
  { meta := ⟨"default", "service-key-issuer"⟩
    data := [("key", "djEuMC0weDAwQkFCMTBD")] }

/-- A signer answering every request with certificate bytes "bogus". -/
def signerOk : Signer := fun _ => .ok { id := "1", certificate := "bogus" }

/-- The decoded CSR used by fixtures. -/
def csrEx : CSR := ⟨["example.com"]⟩

/-- A fully working environment. -/
def envOk : ReconcileEnv :=
  { clockNow := 1000
    clusterResourceNamespace := "cluster-ns"
    checkApprovedCondition := false
    getOriginIssuer := fun _ _ => .ok issuerOk
    getClusterOriginIssuer := fun _ => .ok issuerOk
    getSecret := fun _ _ => .ok secretOk
    apiWith := fun _ => .ok signerOk
    decodeCSR := fun _ => .ok csrEx
    updateStatusErr := none }

/-- A pending request with no conditions, referencing the namespaced issuer. -/
def crBase : CertificateRequest :=
  { meta := ⟨"default", "foobar"⟩
    spec := { request := "csr-bytes"
              duration := none
              issuerRef := ⟨"foobar", "OriginIssuer", groupVersionGroup⟩
              isCA := false }
    status := { conditions := [], failureTime := none, certificate := "" } }

/-- `crBase` with a requested duration of 432 hours (18 days). -/
def crDur18 : CertificateRequest :=
  { crBase with spec := { crBase.spec with duration := some 432 } }

/-- `crBase` already marked `Ready=True`. -/
def crReadyDone : CertificateRequest :=
  { crBase with status := { crBase.status with
      conditions := [⟨"Ready", "True", "Issued", "Certificate issued", some 5⟩] } }

/-! ## Claim theorems -/

/-- C1: a request already carrying a `Ready=True`, `Ready=False/Failed` or
`Ready=False/Denied` condition is ignored: `Reconcile` returns success
without invoking the signer and leaves the request — conditions,
certificate bytes and failure time — unchanged. -/
theorem C1_terminal_conditions_noop (env : ReconcileEnv) (cr : CertificateRequest)
    (h : certificateRequestHasCondition cr readyTrueQ = true ∨
        certificateRequestHasCondition cr readyFailedQ = true ∨
        certificateRequestHasCondition cr readyDeniedQ = true) :
    Reconcile env cr = ⟨cr, none, false⟩ :=
  reconcile_noop_of_terminal env cr h

theorem C1_terminal_conditions_noop_witness :
    certificateRequestHasCondition crReadyDone readyTrueQ = true ∧
    Reconcile envOk crReadyDone = ⟨crReadyDone, none, false⟩ :=
  ⟨by decide, C1_terminal_conditions_noop envOk crReadyDone (Or.inl (by decide))⟩

/-- C2: the validity sent by `Provisioner.Sign` is 7 days when the request
names no duration; otherwise it is the element of `allowedValidty` nearest
(in whole days truncated from hours) to the requested duration, the first
list element winning ties. -/
theorem C2_sign_validity (csr : CSR) (cr : CertificateRequest) (rt : String) :
    (cr.spec.duration = none → (buildSignRequest csr cr rt).validity = 7) ∧
    (∀ hrs : Int, cr.spec.duration = some hrs →
      ∃ L₁ L₂,
        allowedValidty = L₁ ++ (buildSignRequest csr cr rt).validity :: L₂ ∧
        (∀ u ∈ L₁,
          ((buildSignRequest csr cr rt).validity - hrs.tdiv 24).natAbs <
            (u - hrs.tdiv 24).natAbs) ∧
        (∀ u ∈ allowedValidty,
          ((buildSignRequest csr cr rt).validity - hrs.tdiv 24).natAbs ≤
            (u - hrs.tdiv 24).natAbs)) := by
  constructor
  · intro h
    simp [buildSignRequest, signValidity, h, DefaultDurationInternval]
  · intro hrs h
    have hv : (buildSignRequest csr cr rt).validity
        = closest (hrs.tdiv 24) allowedValidty := by
      simp [buildSignRequest, signValidity, h]
    rw [hv]
    cases hfn : firstNearest (hrs.tdiv 24) allowedValidty with
    | none =>
        exact absurd (firstNearest_eq_none hfn) (by simp [allowedValidty])
    | some w =>
        have hc : closest (hrs.tdiv 24) allowedValidty = w := by
          rw [closest_eq_firstNearest, hfn, Option.getD_some]
        rw [hc]
        exact firstNearest_spec _ _ _ hfn

theorem C2_sign_validity_witness :
    crDur18.spec.duration = some 432 ∧
    ∃ L₁ L₂,
      allowedValidty = L₁ ++ (buildSignRequest csrEx crDur18 "").validity :: L₂ ∧
      (∀ u ∈ L₁,
        ((buildSignRequest csrEx crDur18 "").validity - (432 : Int).tdiv 24).natAbs <
          (u - (432 : Int).tdiv 24).natAbs) ∧
      (∀ u ∈ allowedValidty,
        ((buildSignRequest csrEx crDur18 "").validity - (432 : Int).tdiv 24).natAbs ≤
          (u - (432 : Int).tdiv 24).natAbs) :=
  ⟨rfl, (C2_sign_validity csrEx crDur18 "").2 432 rfl⟩

/-- C3: `SetIssuerStatusCondition` appends a fresh condition stamped `now`
when no condition of the type exists; keeps the prior transition time while
replacing reason and message when one exists with the same status; replaces
it entirely with transition time `now` when the status differs; and
re-applying the same (type, status, reason, message) at any later clock is a
fixed point, so the transition timestamp changes exactly when the status
value changes. -/
theorem C3_set_issuer_condition (now : Int) (t s reason message : String) :
    (∀ conds : List OriginIssuerCondition, (∀ x ∈ conds, x.condType ≠ t) →
      (SetIssuerStatusCondition ⟨conds⟩ t s now reason message).conditions =
        conds ++ [⟨t, s, reason, message, some now⟩]) ∧
    (∀ (L₁ L₂ : List OriginIssuerCondition) (c : OriginIssuerCondition),
      (∀ x ∈ L₁, x.condType ≠ t) → c.condType = t →
        ((c.status = s →
          (SetIssuerStatusCondition ⟨L₁ ++ c :: L₂⟩ t s now reason message).conditions =
            L₁ ++ ⟨t, s, reason, message, c.lastTransitionTime⟩ :: L₂) ∧
        (c.status ≠ s →
          (SetIssuerStatusCondition ⟨L₁ ++ c :: L₂⟩ t s now reason message).conditions =
            L₁ ++ ⟨t, s, reason, message, some now⟩ :: L₂))) ∧
    (∀ (later : Int) (conds : List OriginIssuerCondition),
      setIssuerConditionList later t s reason message
          (setIssuerConditionList now t s reason message conds) =
        setIssuerConditionList now t s reason message conds) := by
  refine ⟨?_, ?_, ?_⟩
  · intro conds hc
    show setIssuerConditionList now t s reason message conds = _
    induction conds with
    | nil => rw [setIssuerConditionList]; rfl
    | cons cond rest ih =>
        rw [setIssuerConditionList,
          if_neg (by simp [hc cond (List.mem_cons_self cond rest)]),
          ih fun x hx => hc x (List.mem_cons_of_mem cond hx)]
        rfl
  · intro L₁ L₂ c hL₁ hct
    induction L₁ with
    | nil =>
        constructor
        · intro hs
          show setIssuerConditionList now t s reason message (c :: L₂) = _
          rw [setIssuerConditionList, if_pos (by simp [hct]), if_pos (by simp [hs])]
          rfl
        · intro hs
          show setIssuerConditionList now t s reason message (c :: L₂) = _
          rw [setIssuerConditionList, if_pos (by simp [hct]), if_neg (by simp [hs])]
          rfl
    | cons x L₁ ih =>
        have hx : x.condType ≠ t := hL₁ x (List.mem_cons_self x L₁)
        have ih2 := ih fun y hy => hL₁ y (List.mem_cons_of_mem x hy)
        constructor
        · intro hs
          show setIssuerConditionList now t s reason message ((x :: L₁) ++ c :: L₂) = _
          rw [List.cons_append, setIssuerConditionList, if_neg (by simp [hx])]
          have e2 : setIssuerConditionList now t s reason message (L₁ ++ c :: L₂) =
              L₁ ++ ⟨t, s, reason, message, c.lastTransitionTime⟩ :: L₂ := ih2.1 hs
          rw [e2]
          rfl
        · intro hs
          show setIssuerConditionList now t s reason message ((x :: L₁) ++ c :: L₂) = _
          rw [List.cons_append, setIssuerConditionList, if_neg (by simp [hx])]
          have e2 : setIssuerConditionList now t s reason message (L₁ ++ c :: L₂) =
              L₁ ++ ⟨t, s, reason, message, some now⟩ :: L₂ := ih2.2 hs
          rw [e2]
          rfl
  · intro later conds
    induction conds with
    | nil =>
        rw [setIssuerConditionList, setIssuerConditionList,
          if_pos (by simp), if_pos (by simp)]
    | cons cond rest ih =>
        by_cases h1 : (cond.condType == t) = true
        · rw [setIssuerConditionList, if_pos h1]
          by_cases h2 : (cond.status == s) = true
          · rw [if_pos h2, setIssuerConditionList, if_pos (by simp), if_pos (by simp)]
          · rw [if_neg h2, setIssuerConditionList, if_pos (by simp), if_pos (by simp)]
        · rw [setIssuerConditionList, if_neg h1, setIssuerConditionList, if_neg h1, ih]

theorem C3_set_issuer_condition_witness :
    (∀ x ∈ ([] : List OriginIssuerCondition), x.condType ≠ "Ready") ∧
    (SetIssuerStatusCondition ⟨[]⟩ "Ready" "True" 7 "Verified" "ok").conditions =
      [] ++ [⟨"Ready", "True", "Verified", "ok", some 7⟩] :=
  ⟨by simp, (C3_set_issuer_condition 7 "Ready" "True" "Verified" "ok").1 [] (by simp)⟩

/-- `crBase` with certificate bytes already present in status. -/
def crCertDone : CertificateRequest :=
  { crBase with status := { crBase.status with certificate := "bogus" } }

/-- C8: once the status certificate field is non-empty, `Reconcile` leaves
it unchanged and never invokes the signer — the issued bytes are never
overwritten and the request is not re-submitted for signing. -/
theorem C8_certificate_never_overwritten (env : ReconcileEnv)
    (cr : CertificateRequest) (h : cr.status.certificate ≠ "") :
    (Reconcile env cr).cr.status.certificate = cr.status.certificate ∧
    (Reconcile env cr).signerInvoked = false := by
  rw [Reconcile]
  split
  · exact ⟨rfl, rfl⟩
  split
  · exact ⟨rfl, rfl⟩
  split
  · exact ⟨rfl, rfl⟩
  split
  · exact ⟨rfl, rfl⟩
  split
  · constructor
    · simp only [reconcileDenied, setStatus]
      split <;> rfl
    · simp only [reconcileDenied, setStatus]
  split
  · exact ⟨rfl, rfl⟩
  split
  · exact ⟨rfl, rfl⟩
  · exact absurd (string_length_pos h) (by assumption)

theorem C8_certificate_never_overwritten_witness :
    crCertDone.status.certificate ≠ "" ∧
    (Reconcile envOk crCertDone).cr.status.certificate =
      crCertDone.status.certificate ∧
    (Reconcile envOk crCertDone).signerInvoked = false :=
  ⟨by decide, C8_certificate_never_overwritten envOk crCertDone (by decide)⟩

/-- After `setStatus env cr s r m`, the request carries a `Ready` condition
matching status `s` and reason `r`. -/
lemma hasCondition_after_setStatus (env : ReconcileEnv) (cr : CertificateRequest)
    (s r m : String) :
    certificateRequestHasCondition ((setStatus env cr s r m).1)
      ⟨CertificateRequestConditionReady, s, r, "", none⟩ = true :=
  hasCondition_after_set env.clockNow CertificateRequestConditionReady s r m
    cr.status.conditions

/-- `crBase` carrying an externally set `Denied=True` approval condition. -/
def crDenied : CertificateRequest :=
  { crBase with status := { crBase.status with
      conditions := [⟨"Denied", "True", "policy.cert-manager.io", "denied by policy", some 9⟩] } }

/-- `envOk` whose status-update persistence calls fail. -/
def envUpdFail : ReconcileEnv :=
  { envOk with updateStatusErr := some (.simple "update boom") }

/-- C7 counterexample: on a denied request whose status-update persistence
call fails, `Reconcile` returns that persistence error rather than success —
the denied branch hands back the `setStatus` error instead of swallowing it
as the other branches do. -/
theorem C7_counterexample_returns_update_error :
    certificateRequestIsDenied crDenied = true ∧
    (Reconcile envUpdFail crDenied).err = some (.simple "update boom") :=
  ⟨by decide, by decide⟩

/-- C7 (amended): on an observed denial, `Reconcile` sets `Ready=False` with
reason `Denied`, stamps the failure time only when it is not already set,
never invokes the signer, and returns the outcome of persisting the status
(success exactly when the status update succeeds); re-reconciling the
resulting request is a no-op, so the failure timestamp is set exactly once
across repeated calls. -/
theorem C7_denied_amended (env : ReconcileEnv) (cr : CertificateRequest)
    (h1 : (cr.spec.issuerRef.group != "" &&
      cr.spec.issuerRef.group != groupVersionGroup) = false)
    (h2 : certificateRequestHasCondition cr readyTrueQ = false)
    (h3 : certificateRequestHasCondition cr readyFailedQ = false)
    (h4 : certificateRequestHasCondition cr readyDeniedQ = false)
    (h5 : certificateRequestIsDenied cr = true) :
    (Reconcile env cr).err = env.updateStatusErr ∧
    (Reconcile env cr).signerInvoked = false ∧
    (Reconcile env cr).cr.status.failureTime =
      some (cr.status.failureTime.getD env.clockNow) ∧
    certificateRequestHasCondition (Reconcile env cr).cr readyDeniedQ = true ∧
    Reconcile env (Reconcile env cr).cr = ⟨(Reconcile env cr).cr, none, false⟩ := by
  have hr : Reconcile env cr = reconcileDenied env cr :=
    reconcile_denied_path env cr h1 h2 h3 h4 h5
  have hcomp : reconcileDenied env cr =
      ⟨(setStatus env
          (if cr.status.failureTime.isNone then
            { cr with status := { cr.status with failureTime := some env.clockNow } }
          else cr)
          ConditionFalse CertificateRequestReasonDenied
          "The CertificateRequest was denied by an approval controller").1,
        env.updateStatusErr, false⟩ := rfl
  rw [hr, hcomp]
  have hden : certificateRequestHasCondition
      ((setStatus env
          (if cr.status.failureTime.isNone then
            { cr with status := { cr.status with failureTime := some env.clockNow } }
          else cr)
          ConditionFalse CertificateRequestReasonDenied
          "The CertificateRequest was denied by an approval controller").1)
      readyDeniedQ = true :=
    hasCondition_after_setStatus env _ _ _ _
  refine ⟨rfl, rfl, ?_, hden, ?_⟩
  · cases hft : cr.status.failureTime with
    | none => simp [setStatus, hft]
    | some t => simp [setStatus, hft]
  · exact reconcile_noop_of_terminal env _ (Or.inr (Or.inr hden))

theorem C7_denied_amended_witness :
    certificateRequestIsDenied crDenied = true ∧
    ((Reconcile envOk crDenied).err = envOk.updateStatusErr ∧
    (Reconcile envOk crDenied).signerInvoked = false ∧
    (Reconcile envOk crDenied).cr.status.failureTime =
      some (crDenied.status.failureTime.getD envOk.clockNow) ∧
    certificateRequestHasCondition (Reconcile envOk crDenied).cr readyDeniedQ = true ∧
    Reconcile envOk (Reconcile envOk crDenied).cr =
      ⟨(Reconcile envOk crDenied).cr, none, false⟩) :=
  ⟨by decide, C7_denied_amended envOk crDenied (by decide) (by decide) (by decide)
    (by decide) (by decide)⟩

lemma reconcile_origin_path (env : ReconcileEnv) (cr : CertificateRequest)
    (iss : OriginIssuer) (hre : reachesIssuerSwitch env cr)
    (hk : cr.spec.issuerRef.kind = "OriginIssuer")
    (hget : env.getOriginIssuer cr.meta.ns cr.spec.issuerRef.name = .ok iss)
    (hready : IssuerStatusHasCondition iss.status issuerReadyQ = true) :
    Reconcile env cr =
      afterResolve env cr iss.meta.ns iss.spec.auth.serviceKeyRef.name iss.spec := by
  rw [reconcile_reaches_switch env cr hre, reconcileIssuerKind, if_pos (by simp [hk])]
  simp [resolveOriginIssuer, hget, hready]

/-- A signer answering every request with the database-write-failure error,
as in the requeue test of the repository. -/
def signerDBErr : Signer := fun _ =>
  .error (.apiError 1100 "Failed to write certificate to Database" "7d3eb086eedab98e")

/-- `envOk` with the database-write-failure signer. -/
def envDBErr : ReconcileEnv := { envOk with apiWith := fun _ => .ok signerDBErr }

/-- C4: when signing fails with a structured remote error whose code is the
database-write-failure code 1100, `Reconcile` returns the signing error and
leaves the request completely unchanged — in particular the `Ready`
condition is not set to `Failed` — so a retry re-attempts the signing path
cleanly. -/
theorem C4_db_write_error_retryable (env : ReconcileEnv) (cr : CertificateRequest)
    (iss : OriginIssuer) (secret : Secret) (serviceKey : Bytes) (client : Signer)
    (csr : CSR) (e : GoError) (m rid : String)
    (hre : reachesIssuerSwitch env cr)
    (hk : cr.spec.issuerRef.kind = "OriginIssuer")
    (hget : env.getOriginIssuer cr.meta.ns cr.spec.issuerRef.name = .ok iss)
    (hready : IssuerStatusHasCondition iss.status issuerReadyQ = true)
    (hsec : env.getSecret iss.meta.ns iss.spec.auth.serviceKeyRef.name = .ok secret)
    (hkey : secret.lookup iss.spec.auth.serviceKeyRef.key = some serviceKey)
    (hapi : env.apiWith serviceKey = .ok client)
    (hdec : env.decodeCSR cr.spec.request = .ok csr)
    (hsign : client (buildSignRequest csr cr iss.spec.requestType) = .error e)
    (hcode : errorsAsAPIError e = some (originDBWriteErrorCode, m, rid)) :
    Reconcile env cr = ⟨cr, some (.wrapped "unable to sign request" e), true⟩ := by
  rw [reconcile_origin_path env cr iss hre hk hget hready]
  simp [afterResolve, hsec, hkey, hapi, provisionersNew, Provisioner.Sign, hdec,
    hsign, errorsAsAPIError, hcode, Except.isOk, Except.toBool]

theorem C4_db_write_error_retryable_witness :
    certificateRequestHasCondition crBase readyFailedQ = false ∧
    Reconcile envDBErr crBase =
      ⟨crBase, some (.wrapped "unable to sign request"
        (.apiError 1100 "Failed to write certificate to Database" "7d3eb086eedab98e")),
        true⟩ :=
  ⟨by decide,
    C4_db_write_error_retryable envDBErr crBase issuerOk secretOk
      "djEuMC0weDAwQkFCMTBD" signerDBErr csrEx
      (.apiError 1100 "Failed to write certificate to Database" "7d3eb086eedab98e")
      "Failed to write certificate to Database" "7d3eb086eedab98e"
      ⟨rfl, rfl, rfl, rfl, rfl, rfl, rfl, rfl⟩
      rfl rfl rfl rfl rfl rfl rfl rfl rfl⟩

/-- `envOk` whose API-client factory fails. -/
def envApiFail : ReconcileEnv :=
  { envOk with apiWith := fun _ => .error (.simple "cannot create api client") }

/-- C5 counterexample: a failure to construct the API client from the
credential is a local, terminal-classified failure (it does not carry the
retryable remote code), yet `Reconcile` returns the error with the request
left untouched — no `Ready=False` condition is recorded before returning. -/
theorem C5_counterexample_api_client_failure :
    (Reconcile envApiFail crBase).err = some (.simple "cannot create api client") ∧
    errorsAsAPIError (.simple "cannot create api client") = none ∧
    (Reconcile envApiFail crBase).cr.status.conditions = [] :=
  ⟨by decide, rfl, by decide⟩

/-- C5 (amended): an unknown issuer kind and any signing failure not
carrying the database-write-failure code set a durable `Ready=False/Failed`
condition before the error is returned; a failure to construct the API
client, however, returns its error without recording any condition. -/
theorem C5_terminal_failures_amended (env : ReconcileEnv) (cr : CertificateRequest)
    (hre : reachesIssuerSwitch env cr) :
    (cr.spec.issuerRef.kind ≠ "OriginIssuer" →
      cr.spec.issuerRef.kind ≠ "ClusterOriginIssuer" →
      (Reconcile env cr).err =
        some (.simple ("unknown issuer kind: " ++ cr.spec.issuerRef.kind)) ∧
      certificateRequestHasCondition (Reconcile env cr).cr readyFailedQ = true) ∧
    (∀ (iss : OriginIssuer) (secret : Secret) (serviceKey : Bytes)
      (client : Signer) (err : GoError),
      cr.spec.issuerRef.kind = "OriginIssuer" →
      env.getOriginIssuer cr.meta.ns cr.spec.issuerRef.name = .ok iss →
      IssuerStatusHasCondition iss.status issuerReadyQ = true →
      env.getSecret iss.meta.ns iss.spec.auth.serviceKeyRef.name = .ok secret →
      secret.lookup iss.spec.auth.serviceKeyRef.key = some serviceKey →
      env.apiWith serviceKey = .ok client →
      (provisionersNew client iss.spec.requestType).Sign env.decodeCSR cr = .error err →
      (∀ code m rid, errorsAsAPIError err = some (code, m, rid) →
        code ≠ originDBWriteErrorCode) →
      (Reconcile env cr).err = some err ∧
      certificateRequestHasCondition (Reconcile env cr).cr readyFailedQ = true) := by
  constructor
  · intro hk1 hk2
    rw [reconcile_reaches_switch env cr hre, reconcileIssuerKind,
      if_neg (by simp [hk1]), if_neg (by simp [hk2])]
    exact ⟨rfl, hasCondition_after_setStatus env cr _ _ _⟩
  · intro iss secret serviceKey client err hk hget hready hsec hkey hapi hsign hne
    rw [reconcile_origin_path env cr iss hre hk hget hready]
    simp only [afterResolve, hsec, hkey, hapi, hsign]
    cases herr : errorsAsAPIError err with
    | none =>
        simp only [herr]
        exact ⟨by trivial, hasCondition_after_setStatus env cr _ _ _⟩
    | some triple =>
        obtain ⟨code, m, rid⟩ := triple
        simp only [herr]
        rw [if_neg (by simp [hne code m rid herr])]
        exact ⟨by trivial, hasCondition_after_setStatus env cr _ _ _⟩

/-- `crBase` referencing an unrecognized issuer kind. -/
def crUnknownKind : CertificateRequest :=
  { crBase with spec := { crBase.spec with
      issuerRef := ⟨"foobar", "FooIssuer", groupVersionGroup⟩ } }

theorem C5_terminal_failures_amended_witness :
    crUnknownKind.spec.issuerRef.kind ≠ "OriginIssuer" ∧
    ((Reconcile envOk crUnknownKind).err =
      some (.simple ("unknown issuer kind: " ++ crUnknownKind.spec.issuerRef.kind)) ∧
    certificateRequestHasCondition (Reconcile envOk crUnknownKind).cr
      readyFailedQ = true) :=
  ⟨by decide,
    (C5_terminal_failures_amended envOk crUnknownKind
      ⟨rfl, rfl, rfl, rfl, rfl, rfl, rfl, rfl⟩).1 (by decide) (by decide)⟩

/-- C6: the issuer kind determines where the credential secret is read:
given otherwise identical ready issuers, a request referencing a namespaced
`OriginIssuer` continues into `afterResolve` with the secret located by name
in the request namespace (where the issuer object lives), while a request
referencing a `ClusterOriginIssuer` continues with the secret located by
name in the configured cluster-resource namespace; `afterResolve` begins by
fetching the secret at exactly that location. -/
theorem C6_credential_namespace (env : ReconcileEnv) (cr crc : CertificateRequest)
    (iss issc : OriginIssuer)
    (h1 : reachesIssuerSwitch env cr)
    (h2 : reachesIssuerSwitch env crc) :
    (cr.spec.issuerRef.kind = "OriginIssuer" →
      env.getOriginIssuer cr.meta.ns cr.spec.issuerRef.name = .ok iss →
      iss.meta.ns = cr.meta.ns →
      IssuerStatusHasCondition iss.status issuerReadyQ = true →
      Reconcile env cr =
        afterResolve env cr cr.meta.ns iss.spec.auth.serviceKeyRef.name iss.spec) ∧
    (crc.spec.issuerRef.kind = "ClusterOriginIssuer" →
      env.getClusterOriginIssuer crc.spec.issuerRef.name = .ok issc →
      IssuerStatusHasCondition issc.status issuerReadyQ = true →
      Reconcile env crc =
        afterResolve env crc env.clusterResourceNamespace
          issc.spec.auth.serviceKeyRef.name issc.spec) := by
  constructor
  · intro hk hget hns hready
    rw [reconcile_origin_path env cr iss h1 hk hget hready, hns]
  · intro hk hget hready
    rw [reconcile_reaches_switch env crc h2, reconcileIssuerKind,
      if_neg (by simp [hk]), if_pos (by simp [hk])]
    simp [resolveClusterOriginIssuer, hget, hready]

theorem C6_credential_namespace_witness :
    crBase.spec.issuerRef.kind = "OriginIssuer" ∧
    Reconcile envOk crBase =
      afterResolve envOk crBase crBase.meta.ns
        issuerOk.spec.auth.serviceKeyRef.name issuerOk.spec :=
  ⟨rfl,
    (C6_credential_namespace envOk crBase crBase issuerOk issuerOk
      ⟨rfl, rfl, rfl, rfl, rfl, rfl, rfl, rfl⟩
      ⟨rfl, rfl, rfl, rfl, rfl, rfl, rfl, rfl⟩).1 rfl rfl rfl (by decide)⟩

example : (Reconcile envOk crBase).err = none := by decide
example : (Reconcile envOk crBase).cr.status.certificate = "bogus" := by decide
example : certificateRequestHasCondition (Reconcile envOk crBase).cr
    ⟨"Ready", "True", "Issued", "", none⟩ = true := by decide
example : (Reconcile envDBErr crBase).cr = crBase := by decide

/-- A decoder that always succeeds with `csrEx`. -/
def decodeOkEx : Bytes → Except GoError CSR := fun _ => .ok csrEx

/-- A signer failing with a structured API error. -/
def signerFailEx : Signer := fun _ => .error (.apiError 5 "boom" "r1")

/-- The provisioner built over `signerFailEx`. -/
def provEx : Provisioner := provisionersNew signerFailEx RequestTypeOriginRSA

/-- C9 counterexample: on a signer failure `Provisioner.Sign` does not
return the remote error unmodified: it wraps it in the context message
"unable to sign request", so the error it returns differs from the error
the signer produced. -/
theorem C9_counterexample_error_wrapped :
    provEx.Sign decodeOkEx crBase =
      .error (.wrapped "unable to sign request" (.apiError 5 "boom" "r1")) ∧
    provEx.Sign decodeOkEx crBase ≠ .error (.apiError 5 "boom" "r1") :=
  ⟨rfl, by
    rw [show provEx.Sign decodeOkEx crBase =
      .error (.wrapped "unable to sign request" (.apiError 5 "boom" "r1")) from rfl]
    simp⟩

/-- C9 (amended): `Provisioner.Sign` returns the raw PEM bytes of the
response on success; on signer failure it returns the remote error wrapped
with the fixed context message "unable to sign request", a wrapping that
preserves the structured remote error for classification by unwrapping. -/
theorem C9_sign_error_propagation (p : Provisioner)
    (decode : Bytes → Except GoError CSR) (cr : CertificateRequest) (csr : CSR)
    (hdec : decode cr.spec.request = .ok csr) :
    (∀ e, p.client (buildSignRequest csr cr p.reqType) = .error e →
      p.Sign decode cr = .error (.wrapped "unable to sign request" e) ∧
      errorsAsAPIError (.wrapped "unable to sign request" e) = errorsAsAPIError e) ∧
    (∀ resp, p.client (buildSignRequest csr cr p.reqType) = .ok resp →
      p.Sign decode cr = .ok resp.certificate) := by
  constructor
  · intro e hsign
    refine ⟨?_, rfl⟩
    simp [Provisioner.Sign, hdec, hsign]
  · intro resp hsign
    simp [Provisioner.Sign, hdec, hsign]

theorem C9_sign_error_propagation_witness :
    decodeOkEx crBase.spec.request = .ok csrEx ∧
    (provEx.Sign decodeOkEx crBase =
      .error (.wrapped "unable to sign request" (.apiError 5 "boom" "r1")) ∧
    errorsAsAPIError (.wrapped "unable to sign request" (.apiError 5 "boom" "r1")) =
      errorsAsAPIError (.apiError 5 "boom" "r1")) :=
  ⟨rfl, (C9_sign_error_propagation provEx decodeOkEx crBase csrEx rfl).1
    (.apiError 5 "boom" "r1") rfl⟩

/-- C10: an unrecognized issuer request-type value is not an error for
`Provisioner.Sign`: the type switch has no default case, so the wire-level
type tag stays the empty string and signing proceeds, succeeding whenever
the signer does. -/
theorem C10_unknown_request_type (rt : String)
    (h1 : rt ≠ RequestTypeOriginECC) (h2 : rt ≠ RequestTypeOriginRSA) :
    wireRequestType rt = "" ∧
    (∀ (client : Signer) (decode : Bytes → Except GoError CSR)
      (cr : CertificateRequest) (csr : CSR) (resp : SignResponse),
      decode cr.spec.request = .ok csr →
      client (buildSignRequest csr cr rt) = .ok resp →
      (provisionersNew client rt).Sign decode cr = .ok resp.certificate) := by
  constructor
  · simp [wireRequestType, h1, h2]
  · intro client decode cr csr resp hdec hsign
    simp [Provisioner.Sign, provisionersNew, hdec, hsign]

theorem C10_unknown_request_type_witness :
    ("colemak" : String) ≠ RequestTypeOriginECC ∧
    wireRequestType "colemak" = "" ∧
    (provisionersNew signerOk "colemak").Sign decodeOkEx crBase = .ok "bogus" :=
  ⟨by decide, (C10_unknown_request_type "colemak" (by decide) (by decide)).1,
    (C10_unknown_request_type "colemak" (by decide) (by decide)).2
      signerOk decodeOkEx crBase csrEx ⟨"1", "bogus"⟩ rfl rfl⟩

end OriginCA
